import Mathlib

/-!
Verification of the camera-path generation, keyframe interpolation and
frame-capture pipeline of the 3d-assets-panning-video-maker application.

The TypeScript source is shallowly embedded: JavaScript numbers are modelled
as rationals (ℚ), `THREE.Vector3` as a record of three rationals,
environment functions (`Math.sin`, `Math.cos`, `Math.PI`) as parameters of a
`MathEnv` record, and the asynchronous capture loop as a fuelled state
transition function.
-/

/-- `THREE.Vector3` restricted to the operations the source uses. -/
structure Vec3 where
  x : ℚ
  y : ℚ
  z : ℚ
deriving DecidableEq

/-- `Vector3.add` (componentwise sum, used when computing the asset centroid). -/
def Vec3.add (a b : Vec3) : Vec3 := ⟨a.x + b.x, a.y + b.y, a.z + b.z⟩

/-- `Vector3.divideScalar`. -/
def Vec3.divScalar (a : Vec3) (s : ℚ) : Vec3 := ⟨a.x / s, a.y / s, a.z / s⟩

/-- `THREE.MathUtils.lerp(x, y, t) = x + (y - x) * t`. -/
def lerp (a b t : ℚ) : ℚ := a + (b - a) * t

/-- `Vector3.lerpVectors(v1, v2, alpha)`: componentwise linear interpolation. -/
def Vec3.lerpVectors (a b : Vec3) (t : ℚ) : Vec3 :=
  ⟨lerp a.x b.x t, lerp a.y b.y t, lerp a.z b.z t⟩

/-- The `CameraKeyframe` interface of `DynamicCameraRig`: a time-stamped camera
pose with an optional field of view. -/
structure CameraKeyframe where
  time : ℚ
  position : Vec3
  lookAt : Vec3
  fov : Option ℚ
deriving DecidableEq

/-- The pose record `{ position, lookAt, fov }` returned by
`interpolateKeyframes`. -/
structure CameraPose where
  position : Vec3
  lookAt : Vec3
  fov : ℚ
deriving DecidableEq

/-- The JavaScript expression `kf.fov || 50`: an absent field of view — or the
falsy value `0` — defaults to `50`. -/
def fovOrDefault (o : Option ℚ) : ℚ :=
  match o with
  | none => 50
  | some f => if f = 0 then 50 else f

/-- The pose stored in a keyframe, as the source reads it back
(`position`, `lookAt`, `fov || 50`). -/
def CameraKeyframe.pose (k : CameraKeyframe) : CameraPose :=
  ⟨k.position, k.lookAt, fovOrDefault k.fov⟩

/-- The ambient JavaScript math environment: `Math.sin`, `Math.cos` and
`Math.PI` are uninterpreted parameters of the embedding (every theorem below
holds for an arbitrary environment). -/
structure MathEnv where
  sin : ℚ → ℚ
  cos : ℚ → ℚ
  pi : ℚ

/-- JavaScript truncation toward zero, used by the `%` operator on numbers. -/
def jsTrunc (x : ℚ) : ℤ := if 0 ≤ x then ⌊x⌋ else ⌈x⌉

/-- The JavaScript `%` operator on numbers: remainder with the sign of the
dividend, `a - b * trunc(a / b)`. -/
def jsMod (a b : ℚ) : ℚ := a - b * (jsTrunc (a / b) : ℚ)

/-! ## Interpolator (`interpolateKeyframes` in DynamicCameraRig) -/

/-- The bracketing-pair scan of `interpolateKeyframes`: the first consecutive
pair `(keyframes[i], keyframes[i+1])` with
`keyframes[i].time ≤ t ≤ keyframes[i+1].time`. -/
def findBracketAux (ct : ℚ) : List CameraKeyframe → Option (CameraKeyframe × CameraKeyframe)
  | a :: b :: rest =>
    if a.time ≤ ct ∧ ct ≤ b.time then some (a, b) else findBracketAux ct (b :: rest)
  | _ => none

/-- `interpolateKeyframes(currentTime)` of `DynamicCameraRig`, with the refs it
reads (`keyframesRef`, `dynamicDurationRef`, `isRecordingRef`) passed
explicitly.  Empty keyframe list: a fixed default pose.  Otherwise the query
time is clamped to `[0, dynamicDuration]`, the endpoint branches return the
first/last keyframe pose unblended, and the interior branch eases the blend
factor (hermite while recording, quintic in preview) and linearly interpolates
position, look-at and field of view with the eased factor. -/
def interpolateKeyframes (keyframes : List CameraKeyframe) (dynamicDuration : ℚ)
    (isRecording : Bool) (currentTime : ℚ) : CameraPose :=
  match keyframes with
  | [] => ⟨⟨0, 2, 5⟩, ⟨0, 0, 0⟩, 50⟩
  | k0 :: rest =>
    let clampedTime := max 0 (min currentTime dynamicDuration)
    if clampedTime ≤ k0.time then k0.pose
    else
      let lastFrame := (k0 :: rest).getLast (by simp)
      if clampedTime ≥ lastFrame.time then lastFrame.pose
      else
        let bracket := (findBracketAux clampedTime (k0 :: rest)).getD (k0, lastFrame)
        let beforeFrame := bracket.1
        let afterFrame := bracket.2
        let timeDiff := afterFrame.time - beforeFrame.time
        let t := if timeDiff > 0 then (clampedTime - beforeFrame.time) / timeDiff else 0
        let easedT := if isRecording then t * t * (3 - 2 * t)
          else t * t * t * (t * (t * 6 - 15) + 10)
        ⟨Vec3.lerpVectors beforeFrame.position afterFrame.position easedT,
         Vec3.lerpVectors beforeFrame.lookAt afterFrame.lookAt easedT,
         lerp (fovOrDefault beforeFrame.fov) (fovOrDefault afterFrame.fov) easedT⟩

/-- The camera pose installed by `resetAnimation`: `camera.position.set(0, 2, 5)`,
`camera.lookAt(0, 0, 0)`, `camera.fov = 50`. -/
def resetCameraPose : CameraPose := ⟨⟨0, 2, 5⟩, ⟨0, 0, 0⟩, 50⟩

/-! ## AnimationDriver record-mode timing (`useFrame` in DynamicCameraRig) -/

/-- One recording-mode tick of the rig's `useFrame` callback: latch
`animationStartTimeRef` on the first tick, then
`currentTime = clock.getElapsedTime() - animationStartTimeRef.current`.
Returns the updated start ref and the elapsed time used to query the
interpolator. -/
def recordTick (animationStartTime : Option ℚ) (clockElapsed : ℚ) : Option ℚ × ℚ :=
  match animationStartTime with
  | none => (some clockElapsed, clockElapsed - clockElapsed)
  | some s => (some s, clockElapsed - s)

/-- A recording session of the rig: fold `recordTick` over the wall-clock
times at which the render loop happens to fire, collecting the elapsed time
each tick hands to the interpolator. -/
def recordRun (animationStartTime : Option ℚ) : List ℚ → List ℚ
  | [] => []
  | c :: cs =>
    let step := recordTick animationStartTime c
    step.2 :: recordRun step.1 cs

/-! ## Capture pipeline (`useVideoCapture`) -/

/-- The mutable refs of the `useVideoCapture` hook: `isRecordingRef` and
whether `outputRef` / `videoSourceRef` currently hold a sink. -/
structure HookState where
  isRecording : Bool
  hasOutput : Bool
  hasVideoSource : Bool
deriving DecidableEq

/-- Outcome of running `startRecording`: the `Already recording` throw, normal
completion (with the `(timestamp, duration)` pairs submitted to the video sink
and the hook state after `finishRecording`'s cleanup), a rejected promise after
a frame-submission error (state as the `catch` leaves it), or fuel
exhaustion of the model. -/
inductive CaptureResult where
  | alreadyRecording (state : HookState)
  | finished (frames : List (ℚ × ℚ)) (state : HookState)
  | errored (frames : List (ℚ × ℚ)) (state : HookState)
  | outOfFuel
deriving DecidableEq

/-- The `captureFrame` loop: while `isRecordingRef.current` holds and
`frameCount < totalFrames`, submit `(frameCount / fps, 1 / fps)` to the video
sink (`submitOk` tells whether `videoSource.add` succeeds at that frame) and
recurse; on loop exit run `finishRecording`, whose `finally` clears all three
refs; on a submission error reject immediately, leaving every ref untouched. -/
def captureLoop (submitOk : ℕ → Bool) (totalFrames : ℚ) (s : HookState) :
    ℕ → ℕ → List (ℚ × ℚ) → CaptureResult
  | 0, _, _ => .outOfFuel
  | fuel + 1, frameCount, frames =>
    if ¬ s.isRecording ∨ (frameCount : ℚ) ≥ totalFrames then
      .finished frames ⟨false, false, false⟩
    else
      let timestampInSeconds := (frameCount : ℚ) / 30
      let durationInSeconds := (1 : ℚ) / 30
      if submitOk frameCount then
        captureLoop submitOk totalFrames s fuel (frameCount + 1)
          (frames ++ [(timestampInSeconds, durationInSeconds)])
      else
        .errored frames s

/-- `startRecording(canvas, duration)`: throw `Already recording` if a session
is active (leaving the state untouched), otherwise set `isRecordingRef`,
create the output and canvas source, compute `totalFrames = duration * 30`,
and run the capture loop from frame 0. -/
def startRecording (s : HookState) (submitOk : ℕ → Bool) (duration : ℚ)
    (fuel : ℕ) : CaptureResult :=
  if s.isRecording then .alreadyRecording s
  else
    let fps : ℚ := 30
    let totalFrames := duration * fps
    captureLoop submitOk totalFrames ⟨true, true, true⟩ fuel 0 []

/-- Modelled from the spec: the `round` in the spec's frame-count formula
`frameCount = round(targetDurationSeconds × frameRate)` (JavaScript
`Math.round`, half away from zero for positive arguments).  The source has no
rounding step; this definition exists only to compare the spec's formula with
the source's behaviour. -/
def specRound (x : ℚ) : ℤ := ⌊x + 1 / 2⌋

/-! ## PathGenerator (`generateRandomKeyframes` and friends in DynamicCameraRig) -/

/-- Result record of the generators: `{ keyframes, dynamicDuration }`. -/
structure GenResult where
  keyframes : List CameraKeyframe
  dynamicDuration : ℚ
deriving DecidableEq

/-- `generateSingleAssetAnimation(assetPos, baseAngle)`: the fixed eight-phase
close-up orbit at times 0, 3, 6, 9, 12, 15, 18, 20 seconds. -/
def generateSingleAssetAnimation (env : MathEnv) (startPosition : Option Vec3)
    (assetPos : Vec3) (baseAngle : ℚ) : List CameraKeyframe :=
  let movementVariation := jsMod baseAngle (env.pi * 2) / (env.pi * 2)
  let heightVariation : ℚ := if movementVariation > 1/2 then 1 else -1
  let sideMovement : ℚ := if movementVariation > 1/2 then 1 else -1
  let heightPattern : ℚ := if heightVariation > 0 then 1/2 else -(1/2)
  [ { time := 0,
      position :=
        match startPosition with
        | some p => p
        | none => ⟨assetPos.x + env.sin baseAngle * 3, assetPos.y + 2,
            assetPos.z + env.cos baseAngle * 3⟩,
      lookAt := assetPos, fov := some 50 },
    { time := 3,
      position :=
        match startPosition with
        | some p => Vec3.lerpVectors p
            ⟨assetPos.x + env.sin (baseAngle + 1/5 * sideMovement) * 3,
             assetPos.y + 2 + heightPattern,
             assetPos.z + env.cos (baseAngle + 1/5 * sideMovement) * 3⟩ (1/2)
        | none => ⟨assetPos.x + env.sin (baseAngle + 1/5 * sideMovement) * 3,
            assetPos.y + 2 + heightPattern,
            assetPos.z + env.cos (baseAngle + 1/5 * sideMovement) * 3⟩,
      lookAt := assetPos, fov := some 45 },
    { time := 6,
      position := ⟨assetPos.x + env.sin (baseAngle + 3/5 * sideMovement) * (5/2),
        assetPos.y + 3/2 + heightPattern * (1/2),
        assetPos.z + env.cos (baseAngle + 3/5 * sideMovement) * (5/2)⟩,
      lookAt := assetPos, fov := some 40 },
    { time := 9,
      position := ⟨assetPos.x + env.sin (baseAngle + 6/5 * sideMovement) * 2,
        assetPos.y + 6/5,
        assetPos.z + env.cos (baseAngle + 6/5 * sideMovement) * 2⟩,
      lookAt := assetPos, fov := some 35 },
    { time := 12,
      position := ⟨assetPos.x + env.sin (baseAngle + 2 * sideMovement) * (9/5),
        assetPos.y + 4/5,
        assetPos.z + env.cos (baseAngle + 2 * sideMovement) * (9/5)⟩,
      lookAt := assetPos, fov := some 30 },
    { time := 15,
      position := ⟨assetPos.x + env.sin (baseAngle + 14/5 * sideMovement) * (5/2),
        assetPos.y + 3/2,
        assetPos.z + env.cos (baseAngle + 14/5 * sideMovement) * (5/2)⟩,
      lookAt := assetPos, fov := some 40 },
    { time := 18,
      position := ⟨assetPos.x + env.sin (baseAngle + 7/2 * sideMovement) * 4,
        assetPos.y + 5/2,
        assetPos.z + env.cos (baseAngle + 7/2 * sideMovement) * 4⟩,
      lookAt := assetPos, fov := some 50 },
    { time := 20,
      position := ⟨assetPos.x + env.sin (baseAngle + 21/5 * sideMovement) * (9/2),
        assetPos.y + 5/2,
        assetPos.z + env.cos (baseAngle + 21/5 * sideMovement) * (9/2)⟩,
      lookAt := assetPos, fov := some 55 } ]

/-- The four establishing keyframes (times 0, 2, 4, 6) that
`generateMultiAssetAnimation` pushes before the per-asset tour. -/
def introKeyframes (env : MathEnv) (startPosition : Option Vec3) (center : Vec3)
    (baseAngle : ℚ) : List CameraKeyframe :=
  [ { time := 0,
      position :=
        match startPosition with
        | some p => p
        | none => ⟨center.x + env.sin baseAngle * (7/2), center.y + 5/2,
            center.z + env.cos baseAngle * (7/2)⟩,
      lookAt := center, fov := some 50 },
    { time := 2,
      position :=
        match startPosition with
        | some p => Vec3.lerpVectors p
            ⟨center.x + env.sin baseAngle * (7/2), center.y + 5/2,
             center.z + env.cos baseAngle * (7/2)⟩ (2/5)
        | none => ⟨center.x + env.sin baseAngle * (7/2), center.y + 5/2,
            center.z + env.cos baseAngle * (7/2)⟩,
      lookAt := center, fov := some 45 },
    { time := 4,
      position := ⟨center.x + env.sin (baseAngle + 2/5) * (7/2), center.y + 5/2,
        center.z + env.cos (baseAngle + 2/5) * (7/2)⟩,
      lookAt := center, fov := some 40 },
    { time := 6,
      position := ⟨center.x + env.sin (baseAngle + 4/5) * 3, center.y + 2,
        center.z + env.cos (baseAngle + 4/5) * 3⟩,
      lookAt := center, fov := some 45 } ]

/-- The `assets.forEach((asset, index) => ...)` body of
`generateMultiAssetAnimation`: for each asset an approach keyframe at
`6 + index · timePerAsset` and a close-up at the slice midpoint, plus — for
every asset but the last — a transition keyframe at the slice end that already
looks at the next asset. -/
def tourKeyframes (env : MathEnv) (baseAngle : ℚ) (timePerAsset : ℚ) :
    ℕ → List Vec3 → List CameraKeyframe
  | _, [] => []
  | index, asset :: rest =>
    let startTime := 6 + (index : ℚ) * timePerAsset
    let midTime := startTime + timePerAsset * (1/2)
    let endTime := startTime + timePerAsset
    ({ time := startTime,
       position := ⟨asset.x + env.sin (baseAngle + (index : ℚ)) * (5/2),
         asset.y + 3/2,
         asset.z + env.cos (baseAngle + (index : ℚ)) * (5/2)⟩,
       lookAt := asset, fov := some 40 } ::
     { time := midTime,
       position := ⟨asset.x + env.sin (baseAngle + (index : ℚ) + 3/10) * 2,
         asset.y + 1,
         asset.z + env.cos (baseAngle + (index : ℚ) + 3/10) * 2⟩,
       lookAt := asset, fov := some 35 } ::
     (match rest with
      | [] => []
      | next :: _ =>
        [ { time := endTime,
            position := ⟨asset.x + env.sin (baseAngle + (index : ℚ) + 3/5) * (11/5),
              asset.y + 6/5,
              asset.z + env.cos (baseAngle + (index : ℚ) + 3/5) * (11/5)⟩,
            lookAt := next, fov := some 45 } ]))
    ++ tourKeyframes env baseAngle timePerAsset (index + 1) rest

/-- The `movements.sort((a, b) => a.time - b.time)` call: a stable sort by
keyframe time. -/
def sortByTime (l : List CameraKeyframe) : List CameraKeyframe :=
  l.mergeSort (fun a b => a.time ≤ b.time)

/-- `generateMultiAssetAnimation(center, assets, baseAngle)`:
`dynamicDuration = max(20, 6 + assets.length · 4)`, the intro keyframes, the
per-asset tour over `timePerAsset = (dynamicDuration - 6) / assets.length`, a
final pull-back keyframe at `dynamicDuration`, all sorted by time. -/
def generateMultiAssetAnimation (env : MathEnv) (startPosition : Option Vec3)
    (center : Vec3) (assets : List Vec3) (baseAngle : ℚ) : GenResult :=
  let minSecondsPerAsset : ℚ := 4
  let introDuration : ℚ := 6
  let dynamicDuration := max 20 (introDuration + (assets.length : ℚ) * minSecondsPerAsset)
  let tourDuration := dynamicDuration - introDuration
  let timePerAsset := tourDuration / (assets.length : ℚ)
  let movements :=
    introKeyframes env startPosition center baseAngle
      ++ tourKeyframes env baseAngle timePerAsset 0 assets
      ++ [ { time := dynamicDuration,
             position := ⟨center.x + env.sin (baseAngle + 6) * 5, center.y + 3,
               center.z + env.cos (baseAngle + 6) * 5⟩,
             lookAt := center, fov := some 60 } ]
  ⟨sortByTime movements, dynamicDuration⟩

/-- The centroid computation at the top of `generateRandomKeyframes`: a zero
vector, shifted to the average of the asset positions when there is at least
one asset. -/
def centroid (ps : List Vec3) : Vec3 :=
  if ps.length > 0 then (ps.foldl Vec3.add ⟨0, 0, 0⟩).divScalar (ps.length : ℚ)
  else ⟨0, 0, 0⟩

/-- `generateRandomKeyframes()` of `DynamicCameraRig`: exactly one asset takes
the single-asset close-up path (paired with the rig's configured `duration`),
any other asset count — including zero — takes the multi-asset path around the
centroid. -/
def generateRandomKeyframes (env : MathEnv) (duration : ℚ)
    (startPosition : Option Vec3) (assetsPositions : List Vec3)
    (baseAngle : ℚ) : GenResult :=
  match assetsPositions with
  | [p] => ⟨generateSingleAssetAnimation env startPosition p baseAngle, duration⟩
  | _ => generateMultiAssetAnimation env startPosition (centroid assetsPositions)
      assetsPositions baseAngle

/-! ## Shared concrete inputs for witnesses and counterexamples -/

/-- A concrete math environment used to instantiate witness runs. -/
def env0 : MathEnv := ⟨fun _ => 0, fun _ => 0, 3⟩

/-! ## C10 -/

/-- C10: querying the interpolator on an empty keyframe set never fails and,
for every query time, duration and mode, returns the fixed default pose —
position (0, 2, 5), look-at (0, 0, 0), field of view 50 — which is exactly the
pose `resetAnimation` restores the camera to. -/
theorem c10_empty_keyframes_default (dynamicDuration : ℚ) (isRecording : Bool)
    (t : ℚ) :
    interpolateKeyframes [] dynamicDuration isRecording t = resetCameraPose ∧
    resetCameraPose = ⟨⟨0, 2, 5⟩, ⟨0, 0, 0⟩, 50⟩ :=
  ⟨rfl, rfl⟩

/-! ## C7 -/

/-- C7: starting a capture while one is in progress throws `Already recording`
immediately; the returned state is the input state itself, so the running
capture's recording flag, sinks and frame counter are untouched. -/
theorem c7_concurrent_start_rejected (s : HookState) (submitOk : ℕ → Bool)
    (duration : ℚ) (fuel : ℕ) (h : s.isRecording = true) :
    startRecording s submitOk duration fuel = .alreadyRecording s := by
  simp [startRecording, h]

theorem c7_witness :
    (⟨true, true, true⟩ : HookState).isRecording = true ∧
    startRecording ⟨true, true, true⟩ (fun _ => true) 5 3 =
      .alreadyRecording ⟨true, true, true⟩ :=
  ⟨rfl, c7_concurrent_start_rejected _ _ _ _ rfl⟩

/-! ## C8 -/

/-- C8: when submitting a frame fails (here: frame 0 of a 1-second capture),
the error is propagated (`errored`) and no partial video is returned — but the
hook state is NOT reverted to idle: `isRecordingRef` stays `true` and both
sinks stay referenced, so a subsequent `startRecording` is rejected with
`Already recording`.  This contradicts the claimed guaranteed cleanup. -/
theorem c8_error_leaves_state_recording :
    startRecording ⟨false, false, false⟩ (fun _ => false) 1 40 =
      .errored [] ⟨true, true, true⟩ ∧
    startRecording ⟨true, true, true⟩ (fun _ => true) 1 40 =
      .alreadyRecording ⟨true, true, true⟩ := by
  constructor
  · norm_num [startRecording, captureLoop]
  · norm_num [startRecording]

/-! ## C1 -/

/-- C1 counterexample: a recording whose render loop ticks at wall-clock times
0 s and 0.5 s queries the interpolator at elapsed times 0 and 0.5 — not at the
claimed `frameIndex / frameRate` values 0 and 1/30.  The elapsed time is
wall-clock derived, not the capture loop's virtual clock. -/
theorem c1_counterexample :
    recordRun none [0, 1/2] = [0, 1/2] ∧
    (List.range 2).map (fun i => (i : ℚ) / 30) = [0, 1/30] ∧
    ¬ ([0, (1 : ℚ)/2] = [0, 1/30]) := by
  refine ⟨?_, ?_, ?_⟩
  · norm_num [recordRun, recordTick]
  · norm_num [List.range_succ]
  · norm_num

theorem recordRun_some (s : ℚ) (cs : List ℚ) :
    recordRun (some s) cs = cs.map (fun c => c - s) := by
  induction cs with
  | nil => rfl
  | cons c cs ih => simp [recordRun, recordTick, ih]

/-- C1 amended: while the driver is in recording mode, the elapsed time used
to query the interpolator at each tick is that tick's wall-clock time minus
the wall-clock time of the first recording tick (the start time latched on the
first tick); it is wall-clock derived and coincides with
`frameIndex / frameRate` only when the ticks happen to arrive exactly
`1 / frameRate` apart. -/
theorem c1_record_elapsed_is_wall_clock (c0 : ℚ) (cs : List ℚ) :
    recordRun none (c0 :: cs) = (c0 :: cs).map (fun c => c - c0) := by
  simp [recordRun, recordTick, recordRun_some]

/-! ## C3 -/

/-- C3: for every asset list with at least two assets, the generated path's
target duration is `max(20, 6 + assetCount · 4)` — a 6 s intro plus 4 s per
asset, clamped to a 20 s minimum — for every math environment, rig duration,
start pose and seed angle. -/
theorem c3_multi_asset_duration (env : MathEnv) (duration : ℚ)
    (startPosition : Option Vec3) (assets : List Vec3) (baseAngle : ℚ)
    (h : 2 ≤ assets.length) :
    (generateRandomKeyframes env duration startPosition assets baseAngle).dynamicDuration
      = max 20 (6 + (assets.length : ℚ) * 4) := by
  match assets, h with
  | a :: b :: rest, _ =>
    simp [generateRandomKeyframes, generateMultiAssetAnimation]

theorem c3_witness :
    2 ≤ ([⟨2, 0, 0⟩, ⟨-2, 0, 0⟩] : List Vec3).length ∧
    (generateRandomKeyframes env0 20 none [⟨2, 0, 0⟩, ⟨-2, 0, 0⟩] 0).dynamicDuration
      = max 20 (6 + (([⟨2, 0, 0⟩, ⟨-2, 0, 0⟩] : List Vec3).length : ℚ) * 4) :=
  ⟨by norm_num, c3_multi_asset_duration env0 20 none _ 0 (by norm_num)⟩

/-! ## C2 -/

theorem ceil_toNat_le_iff (T : ℚ) (k : ℕ) : ⌈T⌉.toNat ≤ k ↔ (k : ℚ) ≥ T := by
  rw [Int.toNat_le, Int.ceil_le, ge_iff_le]
  norm_cast

theorem captureLoop_allOk (T : ℚ) :
    ∀ (fuel k : ℕ) (acc : List (ℚ × ℚ)), ⌈T⌉.toNat - k < fuel →
    captureLoop (fun _ => true) T ⟨true, true, true⟩ fuel k acc =
      .finished (acc ++ (List.range' k (⌈T⌉.toNat - k)).map
        (fun j : ℕ => ((j : ℚ) / 30, (1 : ℚ) / 30))) ⟨false, false, false⟩ := by
  intro fuel
  induction fuel with
  | zero => intro k acc h; exact absurd h (Nat.not_lt_zero _)
  | succ fuel ih =>
    intro k acc h
    by_cases hk : (k : ℚ) ≥ T
    · have hnk : ⌈T⌉.toNat ≤ k := (ceil_toNat_le_iff T k).mpr hk
      have h0 : ⌈T⌉.toNat - k = 0 := by omega
      simp only [captureLoop, h0]
      rw [if_pos (by simpa using hk)]
      simp
    · have hkn : k < ⌈T⌉.toNat := by
        by_contra hcon
        exact hk ((ceil_toNat_le_iff T k).mp (by omega))
      have hrec := ih (k + 1) (acc ++ [((k : ℚ) / 30, (1 : ℚ) / 30)]) (by omega)
      have hm : ⌈T⌉.toNat - k = (⌈T⌉.toNat - (k + 1)) + 1 := by omega
      simp only [captureLoop]
      rw [if_neg (by simpa using hk), if_pos trivial, hrec, hm, List.range'_succ,
        List.map_cons]
      simp

theorem chain_capture_frames (m : ℕ) :
    ∀ k, List.Chain' (fun p q : ℚ × ℚ => p.1 < q.1 ∧ q.1 = p.1 + 1 / 30)
      ((List.range' k m).map (fun j : ℕ => ((j : ℚ) / 30, (1 : ℚ) / 30))) := by
  induction m with
  | zero => intro k; simp
  | succ m ih =>
    intro k
    rw [List.range'_succ, List.map_cons]
    cases m with
    | zero => simp
    | succ m' =>
      refine List.chain'_cons'.mpr ⟨?_, ih (k + 1)⟩
      intro p hp
      rw [List.range'_succ, List.map_cons, List.head?_cons] at hp
      simp only [Option.mem_some_iff] at hp
      subst hp
      constructor
      · push_cast
        linarith
      · push_cast; ring

/-- C2 amended: a capture of target duration `d` submits exactly
`⌈d × 30⌉` frames to the video sink (the source computes
`totalFrames = d × 30` with no rounding and loops while
`frameCount < totalFrames`), each tagged `(frameIndex / 30, 1 / 30)`, so the
timestamps are strictly increasing and spaced exactly `1/30` apart, and the
loop never stops before that frame count is reached.  `⌈d × 30⌉` agrees with
the claimed `round(d × 30)` whenever `d × 30` is an integer — which holds for
every duration the application generates — but not in general. -/
theorem c2_capture_frame_schedule (d : ℚ) (fuel : ℕ)
    (hfuel : ⌈d * 30⌉.toNat < fuel) :
    startRecording ⟨false, false, false⟩ (fun _ => true) d fuel =
      .finished ((List.range ⌈d * 30⌉.toNat).map
        (fun j : ℕ => ((j : ℚ) / 30, (1 : ℚ) / 30))) ⟨false, false, false⟩ ∧
    List.Chain' (fun p q : ℚ × ℚ => p.1 < q.1 ∧ q.1 = p.1 + 1 / 30)
      ((List.range ⌈d * 30⌉.toNat).map
        (fun j : ℕ => ((j : ℚ) / 30, (1 : ℚ) / 30))) ∧
    ((List.range ⌈d * 30⌉.toNat).map
      (fun j : ℕ => ((j : ℚ) / 30, (1 : ℚ) / 30))).length = ⌈d * 30⌉.toNat := by
  refine ⟨?_, ?_, by simp⟩
  · rw [startRecording]
    simp only [Bool.false_eq_true, if_false]
    have hloop := captureLoop_allOk (d * 30) fuel 0 [] (by omega)
    rw [hloop]
    simp [List.range_eq_range']
  · rw [List.range_eq_range']
    exact chain_capture_frames _ 0

/-- C2 counterexample: a capture of target duration 5/16 s submits
`⌈5/16 × 30⌉ = 10` frames, while the claim's `round(5/16 × 30) = round(9.375)`
is 9 — the source never rounds, it runs the loop while
`frameCount < duration × 30`. -/
theorem c2_counterexample :
    startRecording ⟨false, false, false⟩ (fun _ => true) (5/16) 11 =
      .finished ((List.range 10).map
        (fun j : ℕ => ((j : ℚ) / 30, (1 : ℚ) / 30))) ⟨false, false, false⟩ ∧
    specRound (5/16 * 30) = 9 ∧
    ((List.range 10).map (fun j : ℕ => ((j : ℚ) / 30, (1 : ℚ) / 30))).length = 10 ∧
    (10 : ℤ) ≠ 9 := by
  have hc : (⌈(5/16 : ℚ) * 30⌉ : ℤ) = 10 := by norm_num [Int.ceil_eq_iff]
  refine ⟨?_, ?_, by simp, by norm_num⟩
  · have h := c2_capture_frame_schedule (5/16) 11 (by rw [hc]; norm_num)
    rw [hc] at h
    simpa using h.1
  · have h79 : ((5/16 : ℚ) * 30 + 1/2) = 79/8 := by norm_num
    rw [specRound, h79]
    norm_num [Int.floor_eq_iff]

theorem c2_witness :
    ⌈(1/10 : ℚ) * 30⌉.toNat < 4 ∧
    (startRecording ⟨false, false, false⟩ (fun _ => true) (1/10) 4 =
      .finished ((List.range ⌈(1/10 : ℚ) * 30⌉.toNat).map
        (fun j : ℕ => ((j : ℚ) / 30, (1 : ℚ) / 30))) ⟨false, false, false⟩ ∧
    List.Chain' (fun p q : ℚ × ℚ => p.1 < q.1 ∧ q.1 = p.1 + 1 / 30)
      ((List.range ⌈(1/10 : ℚ) * 30⌉.toNat).map
        (fun j : ℕ => ((j : ℚ) / 30, (1 : ℚ) / 30))) ∧
    ((List.range ⌈(1/10 : ℚ) * 30⌉.toNat).map
      (fun j : ℕ => ((j : ℚ) / 30, (1 : ℚ) / 30))).length
       = ⌈(1/10 : ℚ) * 30⌉.toNat) :=
  have hf : ⌈(1/10 : ℚ) * 30⌉.toNat < 4 := by
    have hc : (⌈(1/10 : ℚ) * 30⌉ : ℤ) = 3 := by norm_num [Int.ceil_eq_iff]
    rw [hc]; norm_num
  ⟨hf, c2_capture_frame_schedule (1/10) 4 hf⟩

/-! ## C5 -/

/-- C5 amended: for a query time strictly between the endpoint branches, with
the scan returning the bracketing pair `(b, a)` over a positive interval, the
interpolated pose blends position, look-at AND field of view all with the
eased factor (hermite in record mode, quintic in preview) — the field of view
is not interpolated with the raw blend factor. -/
theorem c5_eased_blend (k0 : CameraKeyframe) (rest : List CameraKeyframe)
    (dynamicDuration : ℚ) (isRecording : Bool) (currentTime : ℚ)
    (b a : CameraKeyframe)
    (hlo : k0.time < max 0 (min currentTime dynamicDuration))
    (hhi : max 0 (min currentTime dynamicDuration) <
      ((k0 :: rest).getLast (by simp)).time)
    (hbr : findBracketAux (max 0 (min currentTime dynamicDuration)) (k0 :: rest)
      = some (b, a))
    (hdt : b.time < a.time) :
    interpolateKeyframes (k0 :: rest) dynamicDuration isRecording currentTime =
      let t := (max 0 (min currentTime dynamicDuration) - b.time) / (a.time - b.time)
      let easedT := if isRecording then t * t * (3 - 2 * t)
        else t * t * t * (t * (t * 6 - 15) + 10)
      ⟨Vec3.lerpVectors b.position a.position easedT,
       Vec3.lerpVectors b.lookAt a.lookAt easedT,
       lerp (fovOrDefault b.fov) (fovOrDefault a.fov) easedT⟩ := by
  simp only [interpolateKeyframes, hbr, Option.getD_some]
  rw [if_neg (not_le.mpr hlo), if_neg (not_le.mpr hhi),
    if_pos (sub_pos.mpr hdt)]

/-- A concrete two-keyframe set for the interpolator witnesses: times 0 and 4,
fields of view 20 and 100. -/
def kfA : CameraKeyframe := ⟨0, ⟨0, 0, 0⟩, ⟨0, 0, 0⟩, some 20⟩

def kfB : CameraKeyframe := ⟨4, ⟨8, 0, 0⟩, ⟨1, 1, 1⟩, some 100⟩

/-- C5 counterexample: querying the set `[kfA, kfB]` (times 0 and 4, fields of
view 20 and 100) at time 1 in record mode yields field of view 65/2 — the
hermite-eased blend — whereas the claimed raw-factor linear interpolation
`lerp 20 100 ((1 - 0) / (4 - 0))` is 40. -/
theorem c5_counterexample :
    (interpolateKeyframes [kfA, kfB] 4 true 1).fov = 65/2 ∧
    lerp 20 100 ((1 - 0) / (4 - 0)) = 40 ∧
    (65/2 : ℚ) ≠ 40 := by
  refine ⟨?_, by norm_num [lerp], by norm_num⟩
  norm_num [interpolateKeyframes, findBracketAux, kfA, kfB, fovOrDefault,
    lerp, CameraKeyframe.pose, List.getLast]

theorem c5_witness :
    kfA.time < max 0 (min (1 : ℚ) 4) ∧
    max 0 (min (1 : ℚ) 4) < (([kfA, kfB]).getLast (by simp)).time ∧
    findBracketAux (max 0 (min (1 : ℚ) 4)) [kfA, kfB] = some (kfA, kfB) ∧
    kfA.time < kfB.time ∧
    interpolateKeyframes [kfA, kfB] 4 true 1 =
      (let t := (max 0 (min (1 : ℚ) 4) - kfA.time) / (kfB.time - kfA.time)
       let easedT := if true then t * t * (3 - 2 * t)
         else t * t * t * (t * (t * 6 - 15) + 10)
       ⟨Vec3.lerpVectors kfA.position kfB.position easedT,
        Vec3.lerpVectors kfA.lookAt kfB.lookAt easedT,
        lerp (fovOrDefault kfA.fov) (fovOrDefault kfB.fov) easedT⟩) := by
  have h1 : kfA.time < max 0 (min (1 : ℚ) 4) := by norm_num [kfA]
  have h2 : max 0 (min (1 : ℚ) 4) < (([kfA, kfB]).getLast (by simp)).time := by
    norm_num [kfA, kfB, List.getLast]
  have h3 : findBracketAux (max 0 (min (1 : ℚ) 4)) [kfA, kfB]
      = some (kfA, kfB) := by
    norm_num [findBracketAux, kfA, kfB]
  have h4 : kfA.time < kfB.time := by norm_num [kfA, kfB]
  exact ⟨h1, h2, h3, h4, c5_eased_blend kfA [kfB] 4 true 1 kfA kfB h1 h2 h3 h4⟩

/-! ## C6 -/

/-- C6: for a non-empty keyframe set whose first keyframe is at time 0 and
whose last keyframe sits at the set's duration, querying at any time at or
before the first keyframe's time returns the first keyframe's pose exactly
(no blending), and — when the duration is positive — querying at any time at
or past the duration returns the last keyframe's pose exactly. -/
theorem c6_out_of_range_clamps (k0 : CameraKeyframe) (rest : List CameraKeyframe)
    (dynamicDuration : ℚ) (isRecording : Bool)
    (hhead : k0.time = 0)
    (hlast : ((k0 :: rest).getLast (by simp)).time = dynamicDuration) :
    (∀ t, t ≤ 0 →
      interpolateKeyframes (k0 :: rest) dynamicDuration isRecording t
        = k0.pose) ∧
    (0 < dynamicDuration → ∀ t, dynamicDuration ≤ t →
      interpolateKeyframes (k0 :: rest) dynamicDuration isRecording t
        = ((k0 :: rest).getLast (by simp)).pose) := by
  constructor
  · intro t ht
    have hcl : max 0 (min t dynamicDuration) = 0 :=
      max_eq_left (le_trans (min_le_left _ _) ht)
    simp only [interpolateKeyframes, hcl]
    rw [if_pos (by rw [hhead])]
  · intro hpos t ht
    have hcl : max 0 (min t dynamicDuration) = dynamicDuration := by
      rw [min_eq_right ht]
      exact max_eq_right (le_of_lt hpos)
    simp only [interpolateKeyframes, hcl]
    rw [if_neg (by rw [hhead]; exact not_le.mpr hpos), if_pos hlast.le]

theorem c6_witness :
    kfA.time = 0 ∧
    (([kfA, kfB]).getLast (by simp)).time = 4 ∧
    interpolateKeyframes [kfA, kfB] 4 true (-1) = kfA.pose ∧
    interpolateKeyframes [kfA, kfB] 4 true 5 =
      (([kfA, kfB]).getLast (by simp)).pose := by
  have h1 : kfA.time = 0 := by norm_num [kfA]
  have h2 : (([kfA, kfB]).getLast (by simp)).time = (4 : ℚ) := by
    norm_num [kfA, kfB, List.getLast]
  have hc := c6_out_of_range_clamps kfA [kfB] 4 true h1 h2
  exact ⟨h1, h2, hc.1 (-1) (by norm_num), hc.2 (by norm_num) 5 (by norm_num)⟩

/-! ## C9 -/

/-- C9 counterexample: with an empty asset list the generator takes the
multi-asset branch with zero assets and returns a five-keyframe path (the four
intro keyframes plus the final pull-back), not a single-keyframe path. -/
theorem c9_counterexample :
    (generateRandomKeyframes env0 20 none [] 0).keyframes.length = 5 ∧
    (5 : ℕ) ≠ 1 := by
  constructor
  · norm_num [generateRandomKeyframes, generateMultiAssetAnimation, centroid,
      introKeyframes, tourKeyframes, sortByTime, env0, List.mergeSort,
      List.merge]
  · norm_num

theorem sortByTime_sorted_id (l : List CameraKeyframe)
    (h : List.Pairwise (fun a b : CameraKeyframe => a.time ≤ b.time) l) :
    sortByTime l = l :=
  List.mergeSort_of_sorted (h.imp (fun hab => by simpa using hab))

/-- C9 amended: with an empty asset list the generator never fails and returns
the multi-asset path around the origin with zero tour stops: a valid
five-keyframe set at times 0, 2, 4, 6 and 20 seconds, duration 20, every
keyframe looking at the origin — not a single-keyframe path. -/
theorem c9_empty_assets_default (env : MathEnv) (duration : ℚ)
    (startPosition : Option Vec3) (baseAngle : ℚ) :
    ((generateRandomKeyframes env duration startPosition [] baseAngle).keyframes.map
      (fun k => k.time) = [0, 2, 4, 6, 20]) ∧
    (generateRandomKeyframes env duration startPosition [] baseAngle).dynamicDuration
      = 20 ∧
    ∀ kf ∈ (generateRandomKeyframes env duration startPosition [] baseAngle).keyframes,
      kf.lookAt = ⟨0, 0, 0⟩ := by
  have hunfold : generateRandomKeyframes env duration startPosition [] baseAngle
      = ⟨sortByTime (introKeyframes env startPosition ⟨0, 0, 0⟩ baseAngle ++
          [{ time := 20,
             position := ⟨env.sin (baseAngle + 6) * 5, 3, env.cos (baseAngle + 6) * 5⟩,
             lookAt := ⟨0, 0, 0⟩, fov := some 60 }]), 20⟩ := by
    simp only [generateRandomKeyframes, generateMultiAssetAnimation, centroid,
      tourKeyframes, List.length_nil, gt_iff_lt, lt_irrefl, if_false,
      Nat.cast_zero, List.append_nil]
    norm_num
  have hpair : List.Pairwise (fun a b : CameraKeyframe => a.time ≤ b.time)
      (introKeyframes env startPosition ⟨0, 0, 0⟩ baseAngle ++
        [{ time := 20,
           position := ⟨env.sin (baseAngle + 6) * 5, 3, env.cos (baseAngle + 6) * 5⟩,
           lookAt := ⟨0, 0, 0⟩, fov := some 60 }]) := by
    norm_num [introKeyframes, List.pairwise_cons, List.pairwise_append]
  rw [hunfold, sortByTime_sorted_id _ hpair]
  refine ⟨?_, rfl, ?_⟩
  · simp [introKeyframes]
  · intro kf hkf
    simp only [introKeyframes, List.mem_append, List.mem_cons,
      List.not_mem_nil, or_false, List.mem_singleton] at hkf
    rcases hkf with (rfl | rfl | rfl | rfl) | rfl <;> rfl

/-! ## C4 -/

theorem sortByTime_pairwise (l : List CameraKeyframe) :
    List.Pairwise (fun a b : CameraKeyframe => a.time ≤ b.time) (sortByTime l) := by
  unfold sortByTime
  refine (List.sorted_mergeSort ?_ ?_ l).imp (fun hab => by simpa using hab)
  · intro a b c hab hbc
    simp only [decide_eq_true_eq] at hab hbc ⊢
    exact le_trans hab hbc
  · intro a b
    simp only [Bool.or_eq_true, decide_eq_true_eq]
    exact le_total a.time b.time

theorem pairwise_getLast_time (L : List CameraKeyframe) (hne : L ≠ [])
    (hp : List.Pairwise (fun a b : CameraKeyframe => a.time ≤ b.time) L)
    (D : ℚ) (hmem : ∃ kf ∈ L, kf.time = D)
    (hub : ∀ kf ∈ L, kf.time ≤ D) :
    (L.getLast hne).time = D := by
  induction L with
  | nil => exact absurd rfl hne
  | cons x L ih =>
    cases L with
    | nil =>
      obtain ⟨kf, hkf, hkfD⟩ := hmem
      simp only [List.mem_singleton] at hkf
      subst hkf
      simpa [List.getLast] using hkfD
    | cons y L2 =>
      rw [List.getLast_cons (by simp)]
      obtain ⟨kf, hkf, hkfD⟩ := hmem
      rcases List.mem_cons.mp hkf with rfl | htail
      · have hg1 : kf.time ≤ ((y :: L2).getLast (by simp)).time :=
          List.rel_of_pairwise_cons hp (List.getLast_mem _)
        have hg2 : ((y :: L2).getLast (by simp)).time ≤ D :=
          hub _ (List.mem_cons_of_mem _ (List.getLast_mem _))
        linarith [hkfD ▸ hg1]
      · exact ih (by simp) hp.of_cons ⟨kf, htail, hkfD⟩
          (fun kf2 h2 => hub kf2 (List.mem_cons_of_mem _ h2))

theorem getLast?_time_map (M : List CameraKeyframe) :
    (M.map (fun k => k.time)).getLast? = M.getLast?.map (fun k => k.time) := by
  induction M with
  | nil => rfl
  | cons x M ih =>
    cases M with
    | nil => rfl
    | cons y M2 =>
      rw [List.map_cons, List.map_cons, List.getLast?_cons_cons,
        List.getLast?_cons_cons, ← List.map_cons]
      exact ih

theorem sorted_path_props (L M : List CameraKeyframe) (D : ℚ)
    (hperm : M.Perm L)
    (hpair : List.Pairwise (fun a b : CameraKeyframe => a.time ≤ b.time) M)
    (hmem0 : ∃ kf ∈ L, kf.time = 0)
    (hmemD : ∃ kf ∈ L, kf.time = D)
    (hbound : ∀ kf ∈ L, 0 ≤ kf.time ∧ kf.time ≤ D) :
    List.Chain' (fun a b : CameraKeyframe => a.time ≤ b.time) M ∧
    (M.map (fun k => k.time)).head? = some 0 ∧
    (M.map (fun k => k.time)).getLast? = some D := by
  have hMne : M ≠ [] := by
    obtain ⟨kf, hkf, _⟩ := hmem0
    intro hM
    subst hM
    exact absurd (hperm.symm.eq_nil ▸ hkf : kf ∈ ([] : List CameraKeyframe)) (by simp)
  refine ⟨hpair.chain', ?_, ?_⟩
  · obtain ⟨m0, M', rfl⟩ := List.exists_cons_of_ne_nil hMne
    obtain ⟨kf0, hkf0, hkf0t⟩ := hmem0
    have hkf0M : kf0 ∈ m0 :: M' := hperm.mem_iff.mpr hkf0
    have hlow : 0 ≤ m0.time :=
      (hbound m0 (hperm.mem_iff.mp (List.mem_cons_self _ _))).1
    have hm0 : m0.time = 0 := by
      rcases List.mem_cons.mp hkf0M with rfl | htail
      · exact hkf0t
      · have := List.rel_of_pairwise_cons hpair htail
        linarith [hkf0t ▸ this]
    simp [hm0]
  · rw [getLast?_time_map, List.getLast?_eq_getLast _ hMne]
    have hD : (M.getLast hMne).time = D := by
      refine pairwise_getLast_time M hMne hpair D ?_ ?_
      · obtain ⟨kf, hkf, hkfD⟩ := hmemD
        exact ⟨kf, hperm.mem_iff.mpr hkf, hkfD⟩
      · exact fun kf h2 => (hbound kf (hperm.mem_iff.mp h2)).2
    simp [hD]

theorem tourKeyframes_time_bound (env : MathEnv) (baseAngle : ℚ) (tpa : ℚ)
    (htpa : 0 ≤ tpa) :
    ∀ (l : List Vec3) (i : ℕ), ∀ kf ∈ tourKeyframes env baseAngle tpa i l,
      6 + (i : ℚ) * tpa ≤ kf.time ∧ kf.time ≤ 6 + ((i : ℚ) + l.length) * tpa := by
  intro l
  induction l with
  | nil => intro i kf hkf; simp [tourKeyframes] at hkf
  | cons asset tail ih =>
    intro i kf hkf
    have hi0 : (0 : ℚ) ≤ (i : ℚ) := Nat.cast_nonneg _
    have hlen : (0 : ℚ) ≤ (tail.length : ℚ) := Nat.cast_nonneg _
    have hmul : (0 : ℚ) ≤ (tail.length : ℚ) * tpa := mul_nonneg hlen htpa
    cases tail with
    | nil =>
      simp only [tourKeyframes, List.append_nil, List.mem_cons,
        List.not_mem_nil, or_false] at hkf
      rcases hkf with rfl | rfl
      · constructor
        · simp
        · simp only [List.length_cons, List.length_nil]
          push_cast
          linarith
      · constructor
        · simp only []
          linarith
        · simp only [List.length_cons, List.length_nil]
          push_cast
          linarith
    | cons next tail2 =>
      have hlen2 : (0 : ℚ) ≤ (tail2.length : ℚ) := Nat.cast_nonneg _
      have hmul2 : (0 : ℚ) ≤ (tail2.length : ℚ) * tpa := mul_nonneg hlen2 htpa
      rw [tourKeyframes] at hkf
      simp only [List.mem_cons, List.mem_append, List.mem_singleton,
        List.not_mem_nil, or_false] at hkf
      rcases hkf with (rfl | rfl | rfl) | hmem
      · constructor
        · simp
        · simp only [List.length_cons]
          push_cast
          nlinarith
      · constructor
        · simp only []
          linarith
        · simp only [List.length_cons]
          push_cast
          nlinarith
      · constructor
        · simp only []
          linarith
        · simp only [List.length_cons]
          push_cast
          nlinarith
      · have hb := ih (i + 1) kf hmem
        simp only [List.length_cons] at hb
        push_cast at hb
        constructor
        · linarith [hb.1]
        · simp only [List.length_cons]
          push_cast
          linarith [hb.2]

theorem sortByTime_perm (l : List CameraKeyframe) : (sortByTime l).Perm l :=
  List.mergeSort_perm l _

theorem multiAsset_path_sorted (env : MathEnv) (startPosition : Option Vec3)
    (center : Vec3) (assets : List Vec3) (baseAngle : ℚ) (hne : assets ≠ []) :
    List.Chain' (fun a b : CameraKeyframe => a.time ≤ b.time)
      (generateMultiAssetAnimation env startPosition center assets baseAngle).keyframes ∧
    ((generateMultiAssetAnimation env startPosition center assets baseAngle).keyframes.map
      (fun k => k.time)).head? = some 0 ∧
    ((generateMultiAssetAnimation env startPosition center assets baseAngle).keyframes.map
      (fun k => k.time)).getLast?
      = some (generateMultiAssetAnimation env startPosition center assets baseAngle).dynamicDuration := by
  have hlen : (0 : ℚ) < (assets.length : ℚ) := by
    exact_mod_cast List.length_pos.mpr hne
  have hD20 : (20 : ℚ) ≤ max (20 : ℚ) (6 + (assets.length : ℚ) * 4) := le_max_left _ _
  have htpa4 : (4 : ℚ) ≤
      (max (20 : ℚ) (6 + (assets.length : ℚ) * 4) - 6) / (assets.length : ℚ) := by
    rw [le_div_iff₀ hlen]
    linarith [le_max_right (20 : ℚ) (6 + (assets.length : ℚ) * 4)]
  have htpa0 : (0 : ℚ) ≤
      (max (20 : ℚ) (6 + (assets.length : ℚ) * 4) - 6) / (assets.length : ℚ) :=
    le_trans (by norm_num) htpa4
  have htop : 6 + (assets.length : ℚ) *
      ((max (20 : ℚ) (6 + (assets.length : ℚ) * 4) - 6) / (assets.length : ℚ))
      = max (20 : ℚ) (6 + (assets.length : ℚ) * 4) := by
    field_simp
  simp only [generateMultiAssetAnimation]
  refine sorted_path_props _ _ _ (sortByTime_perm _) (sortByTime_pairwise _) ?_ ?_ ?_
  · simp [introKeyframes]
  · exact ⟨⟨max (20 : ℚ) (6 + (assets.length : ℚ) * 4),
      ⟨center.x + env.sin (baseAngle + 6) * 5, center.y + 3,
        center.z + env.cos (baseAngle + 6) * 5⟩, center, some 60⟩,
      by simp, rfl⟩
  · intro kf hkf
    simp only [List.mem_append] at hkf
    rcases hkf with (hin | htour) | hfin
    · simp only [introKeyframes, List.mem_cons, List.not_mem_nil, or_false] at hin
      rcases hin with rfl | rfl | rfl | rfl <;>
        exact ⟨by norm_num, by norm_num [le_max_iff]⟩
    · have hb := tourKeyframes_time_bound env baseAngle _ htpa0 assets 0 kf htour
      simp only [Nat.cast_zero, zero_mul, add_zero, zero_add] at hb
      rw [htop] at hb
      exact ⟨by linarith [hb.1], hb.2⟩
    · simp only [List.mem_singleton] at hfin
      subst hfin
      exact ⟨by norm_num [le_max_iff], by norm_num⟩

/-- C4 amended: for every non-empty asset list, the generator (at the rig's
configured 20 s default duration) returns a keyframe sequence sorted in
NON-DECREASING order by time, whose first keyframe has time 0 and whose last
keyframe has time equal to the target duration.  The ordering is not strict:
for two or more assets, adjacent keyframes share a time (the intro's 6 s
keyframe coincides with the first asset's approach keyframe, and each
transition keyframe coincides with the next asset's approach keyframe). -/
theorem c4_generated_path_sorted (env : MathEnv) (startPosition : Option Vec3)
    (assets : List Vec3) (baseAngle : ℚ) (hne : assets ≠ []) :
    List.Chain' (fun a b : CameraKeyframe => a.time ≤ b.time)
      (generateRandomKeyframes env 20 startPosition assets baseAngle).keyframes ∧
    ((generateRandomKeyframes env 20 startPosition assets baseAngle).keyframes.map
      (fun k => k.time)).head? = some 0 ∧
    ((generateRandomKeyframes env 20 startPosition assets baseAngle).keyframes.map
      (fun k => k.time)).getLast?
      = some (generateRandomKeyframes env 20 startPosition assets baseAngle).dynamicDuration := by
  match assets, hne with
  | [p], _ =>
    refine ⟨?_, ?_, ?_⟩ <;>
      simp only [generateRandomKeyframes, generateSingleAssetAnimation] <;>
      norm_num [List.chain'_cons, List.getLast?_cons_cons, List.getLast?_singleton]
  | a :: b :: rest, _ =>
    have h := multiAsset_path_sorted env startPosition
      (centroid (a :: b :: rest)) (a :: b :: rest) baseAngle (by simp)
    simpa [generateRandomKeyframes] using h

/-- C4 counterexample: for the two-asset list [(2,0,0), (−2,0,0)] the generated
keyframe sequence is NOT sorted strictly ascending by time — the intro keyframe
at 6 s and the first asset's approach keyframe at 6 s share a time (as do each
transition keyframe and the next asset's approach keyframe at 13 s). -/
theorem c4_counterexample :
    ¬ List.Chain' (fun a b : CameraKeyframe => a.time < b.time)
      (generateRandomKeyframes env0 20 none [⟨2, 0, 0⟩, ⟨-2, 0, 0⟩] 0).keyframes := by
  norm_num [generateRandomKeyframes, generateMultiAssetAnimation, centroid,
    introKeyframes, tourKeyframes, sortByTime, env0, List.mergeSort, List.merge,
    Vec3.add, Vec3.divScalar, List.chain'_cons]

theorem c4_witness :
    ([⟨0, 0, 0⟩] : List Vec3) ≠ [] ∧
    (List.Chain' (fun a b : CameraKeyframe => a.time ≤ b.time)
      (generateRandomKeyframes env0 20 none [⟨0, 0, 0⟩] 0).keyframes ∧
    ((generateRandomKeyframes env0 20 none [⟨0, 0, 0⟩] 0).keyframes.map
      (fun k => k.time)).head? = some 0 ∧
    ((generateRandomKeyframes env0 20 none [⟨0, 0, 0⟩] 0).keyframes.map
      (fun k => k.time)).getLast?
      = some (generateRandomKeyframes env0 20 none [⟨0, 0, 0⟩] 0).dynamicDuration) :=
  ⟨by simp, c4_generated_path_sorted env0 none [⟨0, 0, 0⟩] 0 (by simp)⟩
